import Mathlib

/-!
Verification of the YouTube gaming-video preprocessing pipeline
(`src/preprocessing/automate_Aldy-Naufal.py`).

The Python source is shallowly embedded: strings are `List Char`,
pandas DataFrames are Lean lists of row structures, and the two
DataFrame-producing functions are additionally given a store-passing
embedding (see `PTable`/`Store` below) so that the aliasing behaviour of
`df.copy()` and in-place column assignment can be stated.

One genuine nondeterminism of the source is modelled explicitly:
`detect_genres_from_text` accumulates matched genres in a Python `set`
and returns `list(found_genres)`.  CPython iterates a set of strings in
hash-table order, and string hashing is randomized per process, so the
order of the returned list is not determined by the source.  The
embedding therefore takes a set-enumeration function `enum` as a
parameter; `ValidEnum` states exactly what `list` of a set guarantees:
each element of the set appears exactly once, in some order.
-/

namespace AutomatePipeline

/-- Convert a Lean string literal to the `List Char` representation used
throughout the embedding. -/
def s2l (s : String) : List Char := s.data

/-- Embedding of Python's `str.lower` (ASCII case folding; all keywords and
all concrete inputs considered here are ASCII). -/
def lowerChars (cs : List Char) : List Char := cs.map Char.toLower

/-- Does `pre` occur at the start of `cs`?  Helper for substring search. -/
def strStarts : List Char → List Char → Bool
  | [], _ => true
  | _ :: _, [] => false
  | a :: as, b :: bs => a == b && strStarts as bs

/-- Embedding of Python's substring test `needle in haystack`. -/
def strHasSub (needle : List Char) : List Char → Bool
  | [] => strStarts needle []
  | b :: bs => strStarts needle (b :: bs) || strHasSub needle bs

/-- The `GENRE_KEYWORDS` table of the source, verbatim: a fixed mapping
from 11 genre names to keyword lists, in declaration order. -/
def GENRE_KEYWORDS : List (String × List String) :=
  [ ("MOBA",
      ["mobile legends", "mlbb", "arena of valor", "aov", "league of legends",
       "lol pc", "wild rift", "dota 2", "ml", "dota"]),
    ("FPS",
      ["valorant", "csgo", "counter strike", "cs2", "call of duty", "codm",
       "apex legends", "overwatch", "valo", "delta force"]),
    ("Battle Royale",
      ["pubg", "pubg mobile", "free fire", "ff", "fortnite", "warzone"]),
    ("RPG",
      ["genshin impact", "honkai star rail", "star rail",
       "zenless zone zero", "zzz", "elden ring", "final fantasy",
       "persona", "rpg"]),
    ("Horror",
      ["outlast", "amnesia", "phasmophobia", "poppy playtime",
       "fnaf", "five nights at freddy", "horror game", "game horror"]),
    ("Sandbox",
      ["minecraft", "roblox", "terraria", "sandbox"]),
    ("Sports",
      ["fifa", "ea fc", "pes", "efootball", "nba 2k", "football manager"]),
    ("Racing",
      ["forza", "gran turismo", "need for speed", "nfs", "f1 23", "f1 24",
       "assetto corsa"]),
    ("Strategy",
      ["age of empires", "civilization", "clash of clans", "coc",
       "clash royale", "strategy game"]),
    ("Casual/Party",
      ["stumble guys", "fall guys", "party game", "jackbox"]),
    ("Simulation",
      ["bus simulator", "truck simulator", "ets2", "euro truck",
       "simulator", "driving simulator", "farming simulator",
       "train simulator", "flight simulator"]) ]

/-- The `parts` list built by `detect_genres_from_text`: the fields that are
present and non-empty (Python truthiness of a string: `None` and `""` are
falsy), in the order title, description, tags. -/
def pyParts (title description tags : Option (List Char)) : List (List Char) :=
  (([title, description, tags]).filterMap id).filter (fun s => !s.isEmpty)

/-- The lower-cased space-joined text `" ".join(parts).lower()` scanned for
keywords. -/
def joinedText (parts : List (List Char)) : List Char :=
  lowerChars (List.intercalate ([' ']) parts)

/-- The genres whose keyword list matches a given text, in `GENRE_KEYWORDS`
declaration order.  A genre is collected when some keyword of it occurs as
a substring of the text (the `break` of the source makes the inner loop an
existential over the keyword list). -/
def genresOnText (text : List Char) : List String :=
  GENRE_KEYWORDS.filterMap (fun gk =>
    if gk.2.any (fun kw => strHasSub (lowerChars (s2l kw)) text)
    then some gk.1 else none)

/-- The set of genres collected by the keyword loop of
`detect_genres_from_text`, canonically enumerated in `GENRE_KEYWORDS`
declaration order. -/
def matchedGenres (title description tags : Option (List Char)) : List String :=
  genresOnText (joinedText (pyParts title description tags))

/-- What `list(s)` of a Python set guarantees about its order: the result
enumerates each element of the set exactly once, in some order.  Applied
below only to duplicate-free lists, so a permutation captures this
exactly. -/
def ValidEnum (enum : List String → List String) : Prop :=
  ∀ xs : List String, List.Perm (enum xs) xs

/-- Embedding of `detect_genres_from_text(title, description, tags)`,
parameterized by the set-enumeration function `enum` standing for the
`list(found_genres)` conversion (see the module docstring). -/
def detect_genres_from_text (enum : List String → List String)
    (title description tags : Option (List Char)) : List String :=
  if pyParts title description tags = [] then []
  else enum (matchedGenres title description tags)

/-- One row of the raw video table built by `youtube_get_videos_stats`.
Only the columns the classifier and filter read are modelled; text
columns hold `none` where the Python cell is `None`. -/
structure VideoRow where
  video_id : List Char
  title : Option (List Char)
  description : Option (List Char)
  tags : Option (List Char)
deriving DecidableEq, Repr

/-- A `VideoRow` with the two columns appended by
`add_primary_genre_column`. -/
structure TaggedRow where
  base : VideoRow
  genres_list : List String
  primary_genre : Option String
deriving DecidableEq, Repr

/-- A `TaggedRow` with the derived `text` column appended by
`clean_for_modelling`. -/
structure ModelRow where
  tagged : TaggedRow
  text : List Char
deriving DecidableEq, Repr

/-- The per-row computation of `add_primary_genre_column`: `genres_list`
is the detected list, `primary_genre` is `g_list[0] if g_list else None`. -/
def tagRow (enum : List String → List String) (row : VideoRow) : TaggedRow :=
  let g := detect_genres_from_text enum row.title row.description row.tags
  ⟨row, g, g.head?⟩

/-- Pure content of `add_primary_genre_column`: the returned table has the
same rows with `genres_list` and `primary_genre` columns appended. -/
def addGenreColumns (enum : List String → List String)
    (rows : List VideoRow) : List TaggedRow :=
  rows.map (tagRow enum)

/-- Number of rows of the table whose `primary_genre` equals `some g` —
the `value_counts` entry of genre `g`. -/
def genreCount (rows : List TaggedRow) (g : String) : Nat :=
  (rows.filter (fun r => r.primary_genre == some g)).length

/-- The `combine_text` helper of `clean_for_modelling`: space-join of the
fields that are strings (here: the fields that are present, including
empty strings — `isinstance("", str)` holds). -/
def combineText (r : TaggedRow) : List Char :=
  List.intercalate ([' '])
    (([r.base.title, r.base.description, r.base.tags]).filterMap id)

/-- Pure content of `clean_for_modelling`: drop rows with null
`primary_genre`, keep rows whose genre's count over the remaining rows is
at least `min_samples` (`value_counts`/`isin` of the source: a kept row's
genre occurs in the table, so membership in `valid_genres` is exactly
`min_samples ≤ count`), then append the derived `text` column. -/
def clean_for_modelling (rows : List TaggedRow) (min_samples : Nat) :
    List ModelRow :=
  let df1 := rows.filter (fun r => r.primary_genre.isSome)
  let df2 := df1.filter (fun r =>
    match r.primary_genre with
    | some g => decide (min_samples ≤ genreCount df1 g)
    | none => false)
  df2.map (fun r => ⟨r, combineText r⟩)

/-- First-occurrence-wins deduplication, the embedding of
`list(dict.fromkeys(video_ids))`: keep an element iff it has not been
seen before, preserving order of first occurrences.  `seen` is the
accumulator of already-emitted elements. -/
def dedupFirstAux (seen : List (List Char)) : List (List Char) → List (List Char)
  | [] => []
  | x :: xs =>
    if x ∈ seen then dedupFirstAux seen xs
    else x :: dedupFirstAux (x :: seen) xs

/-- `list(dict.fromkeys(video_ids))` of the source. -/
def dedupFirst (xs : List (List Char)) : List (List Char) :=
  dedupFirstAux [] xs

/-- One page of search-endpoint responses: the identifiers of its items
and whether a `nextPageToken` was present. -/
def Page : Type := List (List Char) × Bool

/-- The accumulation loop of `youtube_search` over a trace of endpoint
pages: while `fetched < max_results`, request a page (consume the head of
the trace), append its item identifiers, advance `fetched` by the number
of items, and continue only when the page carried a next-page token.  An
exhausted trace ends the run (the trace is the whole observed endpoint
behaviour). -/
def searchRaw (max_results : Nat) : List Page → Nat → List (List Char)
  | [], _ => []
  | (items, hasNext) :: rest, fetched =>
    if fetched < max_results then
      items ++ (if hasNext then searchRaw max_results rest (fetched + items.length) else [])
    else []

/-- Embedding of `youtube_search`: the raw paged identifier stream,
deduplicated first-occurrence-wins at the end. -/
def youtube_search (pages : List Page) (max_results : Nat) : List (List Char) :=
  dedupFirst (searchRaw max_results pages 0)

/-- The precondition that each page actually requested returns at most the
number of items requested for it (`maxResults = min(50, max_results -
fetched)`), mirroring the control flow of `searchRaw`. -/
def pagesBounded (max_results : Nat) : List Page → Nat → Bool
  | [], _ => true
  | (items, hasNext) :: rest, fetched =>
    if fetched < max_results then
      decide (items.length ≤ min 50 (max_results - fetched)) &&
        (!hasNext || pagesBounded max_results rest (fetched + items.length))
    else true

/-- The chunk slicing of `youtube_get_videos_stats`, via the index loop of
the source: `for i in range(0, len(video_ids), 50): chunk = video_ids[i:i+50]`;
`range(0, n, 50)` has `⌈n / 50⌉` elements. -/
def detailRequests (video_ids : List (List Char)) : List (List (List Char)) :=
  (List.range ((video_ids.length + 49) / 50)).map
    (fun k => ((video_ids.drop (50 * k)).take 50))

/-- Structural chunking of a list into consecutive blocks of at most 50,
used to state what `detailRequests` computes. -/
def chunks50 : List (List Char) → List (List (List Char))
  | [] => []
  | x :: xs => ((x :: xs).take 50) :: chunks50 ((x :: xs).drop 50)
  termination_by l => l.length
  decreasing_by simp; omega

/-- The tag serialization of `youtube_get_videos_stats`:
`"|".join(tags)` when the `tags` field is a list. -/
def tagsJoin (tags : List (List Char)) : List Char :=
  List.intercalate (['|']) tags

/-- A pandas DataFrame value, at one of the three shapes the pipeline
uses. -/
inductive PTable
  | vids (rows : List VideoRow)
  | tagged (rows : List TaggedRow)
  | model (rows : List ModelRow)
deriving DecidableEq, Repr

/-- A heap of DataFrame objects; a DataFrame variable of the Python
program is an index into the store.  `df.copy()` allocates a fresh cell;
in-place column assignment (`df[col] = ...`) overwrites a cell. -/
abbrev Store : Type := List PTable

/-- Read the DataFrame at reference `r`. -/
def storeGet (σ : Store) (r : Nat) : PTable :=
  List.getD σ r (PTable.vids [])

/-- The rows of the cell at `r` when it holds a raw video table. -/
def vidRowsAt (σ : Store) (r : Nat) : List VideoRow :=
  match storeGet σ r with
  | PTable.vids rs => rs
  | _ => []

/-- The rows of the cell at `r` when it holds a tagged table. -/
def taggedRowsAt (σ : Store) (r : Nat) : List TaggedRow :=
  match storeGet σ r with
  | PTable.tagged rs => rs
  | _ => []

/-- Store-level embedding of `add_primary_genre_column(df_videos)`: read
the argument table, compute the two new columns, rebind the local name to
`df_videos.copy()` (a fresh cell seeded with the argument's value), assign
the two columns in place on the copy, and return the copy's reference. -/
def add_primary_genre_column (enum : List String → List String)
    (σ : Store) (r : Nat) : Store × Nat :=
  let rows := vidRowsAt σ r
  let copyRef := List.length σ
  let σ₁ := σ ++ [storeGet σ r]
  let σ₂ := σ₁.set copyRef (PTable.tagged (addGenreColumns enum rows))
  (σ₂, copyRef)

/-- Store-level embedding of `clean_for_modelling(df_with_genre,
min_samples)`: `dropna(...).copy()` allocates one fresh cell, the
boolean-mask selection `.copy()` allocates another, and the `text` column
assignment mutates only that second fresh cell, whose reference is
returned. -/
def clean_for_modelling_st (σ : Store) (r : Nat) (min_samples : Nat) :
    Store × Nat :=
  let rows := taggedRowsAt σ r
  let df1 := rows.filter (fun row => row.primary_genre.isSome)
  let σ₁ := σ ++ [PTable.tagged df1]
  let df2 := df1.filter (fun row =>
    match row.primary_genre with
    | some g => decide (min_samples ≤ genreCount df1 g)
    | none => false)
  let outRef := List.length σ₁
  let σ₂ := σ₁ ++ [PTable.tagged df2]
  let σ₃ := σ₂.set outRef (PTable.model (df2.map (fun row => ⟨row, combineText row⟩)))
  (σ₃, outRef)

/-- A concrete raw video row used to instantiate universally quantified
theorems: a Valorant video (matches the FPS keyword list). -/
def sampleVideo : VideoRow :=
  ⟨s2l ("vid1"), some (s2l ("valorant ranked grind")), none, some (s2l ("valorant|fps"))⟩

/-- A concrete tagged row with primary genre `RPG`. -/
def sampleRpgRow : TaggedRow :=
  ⟨⟨s2l ("vid2"), some (s2l ("genshin impact build")), none, none⟩, ["RPG"], some ("RPG")⟩

/-- A concrete tagged row with primary genre `MOBA`. -/
def sampleMobaRow : TaggedRow :=
  ⟨⟨s2l ("vid3"), some (s2l ("mlbb rank push")), none, none⟩, ["MOBA"], some ("MOBA")⟩

/-- A concrete tagged table in which genre `RPG` has exactly 19 rows. -/
def sampleTable19 : List TaggedRow :=
  List.replicate 19 sampleRpgRow ++ [sampleMobaRow]

/-- A concrete endpoint page trace: a first page of three items (with a
repeated identifier) carrying a next-page token, then a final page of one
item. -/
def samplePages : List Page :=
  [(([s2l ("a"), s2l ("b"), s2l ("a")], true) : Page),
   (([s2l ("c")], false) : Page)]

/-- A concrete one-cell store holding a one-row raw video table. -/
def sampleStore : Store := [PTable.vids [sampleVideo]]

/-- Index of the first occurrence of `a` in `xs` (length of `xs` when
absent); used to state that the deduplicated search result is ordered by
first occurrence. -/
def firstIdx : List (List Char) → List Char → Nat
  | [], _ => 0
  | y :: ys, a => if y = a then 0 else firstIdx ys a + 1

/-- A genre list is in Genre Table declaration order when it is a sublist
of the table's genre-name column. -/
def tableOrdered (gs : List String) : Prop :=
  List.Sublist gs (GENRE_KEYWORDS.map Prod.fst)

/-! ### Lemmas about first-occurrence deduplication -/

theorem mem_dedupFirstAux (x : List Char) :
    ∀ (xs seen : List (List Char)),
      x ∈ dedupFirstAux seen xs ↔ (x ∈ xs ∧ x ∉ seen)
  | [], seen => by simp [dedupFirstAux]
  | y :: ys, seen => by
    by_cases hy : y ∈ seen
    · rw [dedupFirstAux, if_pos hy, mem_dedupFirstAux x ys seen]
      simp only [List.mem_cons]
      constructor
      · rintro ⟨h1, h2⟩
        exact ⟨Or.inr h1, h2⟩
      · rintro ⟨h1 | h1, h2⟩
        · exact absurd (h1 ▸ hy) h2
        · exact ⟨h1, h2⟩
    · rw [dedupFirstAux, if_neg hy]
      simp only [List.mem_cons, mem_dedupFirstAux x ys (y :: seen)]
      constructor
      · rintro (rfl | ⟨h1, h2⟩)
        · exact ⟨Or.inl rfl, hy⟩
        · exact ⟨Or.inr h1, fun hc => h2 (Or.inr hc)⟩
      · rintro ⟨h1 | h1, h2⟩
        · exact Or.inl h1
        · by_cases hxy : x = y
          · exact Or.inl hxy
          · exact Or.inr ⟨h1, by simp [hxy, h2]⟩

theorem dedupFirstAux_sublist :
    ∀ (xs seen : List (List Char)), List.Sublist (dedupFirstAux seen xs) xs
  | [], _ => List.Sublist.refl []
  | y :: ys, seen => by
    rw [dedupFirstAux]
    by_cases hy : y ∈ seen
    · rw [if_pos hy]
      exact List.Sublist.cons y (dedupFirstAux_sublist ys seen)
    · rw [if_neg hy]
      exact List.Sublist.cons₂ y (dedupFirstAux_sublist ys (y :: seen))

theorem dedupFirstAux_nodup :
    ∀ (xs seen : List (List Char)), (dedupFirstAux seen xs).Nodup
  | [], _ => List.nodup_nil
  | y :: ys, seen => by
    rw [dedupFirstAux]
    by_cases hy : y ∈ seen
    · rw [if_pos hy]
      exact dedupFirstAux_nodup ys seen
    · rw [if_neg hy]
      refine List.nodup_cons.mpr ⟨fun hmem => ?_, dedupFirstAux_nodup ys (y :: seen)⟩
      exact ((mem_dedupFirstAux y ys (y :: seen)).mp hmem).2 (List.mem_cons_self y seen)

theorem dedupFirstAux_eq_self :
    ∀ (xs seen : List (List Char)), xs.Nodup → (∀ x ∈ xs, x ∉ seen) →
      dedupFirstAux seen xs = xs
  | [], _, _, _ => rfl
  | y :: ys, seen, hnd, hdisj => by
    rw [dedupFirstAux, if_neg (hdisj y (List.mem_cons_self y ys))]
    refine congrArg (y :: ·) (dedupFirstAux_eq_self ys (y :: seen)
      (List.nodup_cons.mp hnd).2 ?_)
    intro x hx
    rw [List.mem_cons]
    rintro (rfl | hc)
    · exact (List.nodup_cons.mp hnd).1 hx
    · exact hdisj x (List.mem_cons_of_mem _ hx) hc

/-- Claim C5: the search-layer first-occurrence-wins deduplication
(`list(dict.fromkeys(...))`, embedded as `dedupFirst`) is idempotent:
applying it twice to any list of identifiers yields exactly the same
sequence as applying it once. -/
theorem dedupFirst_idempotent (xs : List (List Char)) :
    dedupFirst (dedupFirst xs) = dedupFirst xs :=
  dedupFirstAux_eq_self (dedupFirst xs) [] (dedupFirstAux_nodup xs [])
    (fun x _ hx => List.not_mem_nil x hx)

/-! ### Lemmas about detail-request chunking -/

theorem chunks50_flatten : ∀ l : List (List Char), (chunks50 l).flatten = l
  | [] => by rw [chunks50]; rfl
  | x :: xs => by
    rw [chunks50, List.flatten_cons, chunks50_flatten ((x :: xs).drop 50),
      List.take_append_drop]
  termination_by l => l.length
  decreasing_by simp; omega

theorem chunks50_length_le :
    ∀ l : List (List Char), ∀ c ∈ chunks50 l, c.length ≤ 50
  | [] => by rw [chunks50]; intro c hc; exact absurd hc (List.not_mem_nil c)
  | x :: xs => by
    rw [chunks50]
    intro c hc
    rcases List.mem_cons.mp hc with rfl | h
    · simp
    · exact chunks50_length_le ((x :: xs).drop 50) c h
  termination_by l => l.length
  decreasing_by simp; omega

theorem detailRequests_eq_chunks50 :
    ∀ l : List (List Char), detailRequests l = chunks50 l
  | [] => by rw [chunks50]; rfl
  | x :: xs => by
    rw [chunks50, detailRequests]
    have hlen : ((x :: xs).length + 49) / 50 =
        (((x :: xs).drop 50).length + 49) / 50 + 1 := by
      simp only [List.length_drop, List.length_cons]
      omega
    rw [hlen, List.range_succ_eq_map, List.map_cons]
    refine congrArg₂ (· :: ·) (by simp) ?_
    rw [← detailRequests_eq_chunks50 ((x :: xs).drop 50), detailRequests,
      List.map_map]
    refine List.map_congr_left ?_
    intro k _
    simp only [Function.comp_apply, List.drop_drop]
    refine congrArg (List.take 50) (congrArg (fun n => List.drop n (x :: xs)) ?_)
    omega
  termination_by l => l.length
  decreasing_by simp; omega

/-- Claim C7: `youtube_get_videos_stats` partitions its identifier list into
consecutive chunks of length at most 50 whose concatenation is the input
list, issuing exactly one details request per chunk: the requests issued by
the index loop (`detailRequests`) are exactly the consecutive ≤50-blocks of
the input (`chunks50`), their concatenation restores the input, and every
request carries at most 50 identifiers. -/
theorem detailRequests_partition (l : List (List Char)) :
    detailRequests l = chunks50 l ∧
    (detailRequests l).flatten = l ∧
    (∀ c ∈ detailRequests l, c.length ≤ 50) := by
  refine ⟨detailRequests_eq_chunks50 l, ?_, ?_⟩
  · rw [detailRequests_eq_chunks50 l]
    exact chunks50_flatten l
  · rw [detailRequests_eq_chunks50 l]
    exact chunks50_length_le l

/-! ### Monotonicity and threshold behaviour of the modelling filter -/

/-- Claim C4: `clean_for_modelling` is monotonic in `min_samples`:
for every tagged table and thresholds `m1 ≤ m2`, the filtered table at
threshold `m2` has at most as many rows as the one at threshold `m1`. -/
theorem clean_for_modelling_monotone (rows : List TaggedRow) (m1 m2 : Nat)
    (h : m1 ≤ m2) :
    (clean_for_modelling rows m2).length ≤ (clean_for_modelling rows m1).length := by
  simp only [clean_for_modelling, List.length_map]
  refine List.Sublist.length_le (List.monotone_filter_right _ ?_)
  intro r hr
  cases hpg : r.primary_genre with
  | none => simp [hpg] at hr
  | some g =>
    simp only [hpg, decide_eq_true_eq] at hr ⊢
    omega

/-- Witness for claim C4 at a concrete table and thresholds. -/
theorem clean_for_modelling_monotone_witness :
    1 ≤ 2 ∧
    (clean_for_modelling sampleTable19 2).length ≤
      (clean_for_modelling sampleTable19 1).length :=
  ⟨by decide, clean_for_modelling_monotone sampleTable19 1 2 (by decide)⟩

theorem genreCount_filter_isSome (rows : List TaggedRow) (g : String) :
    genreCount (rows.filter (fun r => r.primary_genre.isSome)) g =
      genreCount rows g := by
  simp only [genreCount, List.filter_filter]
  refine congrArg List.length (List.filter_congr ?_)
  intro r _
  cases hpg : r.primary_genre <;> simp [hpg]

/-- The rows of a fixed genre `g` surviving `clean_for_modelling`: all of
them when the genre's count reaches the threshold, none otherwise. -/
theorem clean_genre_rows (rows : List TaggedRow) (g : String) (m : Nat) :
    ((clean_for_modelling rows m).filter
        (fun r => r.tagged.primary_genre == some g)).length =
      if m ≤ genreCount rows g then genreCount rows g else 0 := by
  rw [← genreCount_filter_isSome rows g]
  set df1 := rows.filter (fun r => r.primary_genre.isSome) with hdf1
  have hclean : clean_for_modelling rows m =
      (df1.filter (fun r =>
        match r.primary_genre with
        | some g0 => decide (m ≤ genreCount df1 g0)
        | none => false)).map (fun r => (⟨r, combineText r⟩ : ModelRow)) := rfl
  rw [hclean, List.filter_map, List.length_map, List.filter_filter]
  by_cases hm : m ≤ genreCount df1 g
  · rw [if_pos hm]
    have hcnt : genreCount df1 g =
        (df1.filter (fun r => r.primary_genre == some g)).length := rfl
    rw [hcnt]
    refine congrArg List.length (List.filter_congr ?_)
    intro r _
    cases hpg : r.primary_genre with
    | none => simp [Function.comp, hpg]
    | some g' =>
      by_cases hg : g' = g
      · subst hg
        simp [Function.comp, hpg, hm]
      · simp [Function.comp, hpg, hg]
  · rw [if_neg hm]
    rw [List.length_eq_zero, List.filter_eq_nil_iff]
    intro r _
    cases hpg : r.primary_genre with
    | none => simp [Function.comp, hpg]
    | some g' =>
      by_cases hg : g' = g
      · subst hg
        simp [Function.comp, hpg, hm]
      · simp [Function.comp, hpg, hg]

/-- Claim C9: the threshold comparison of `clean_for_modelling` is
inclusive (`count ≥ min_samples`): in any tagged table where genre `g` is
the primary genre of exactly 19 rows, `min_samples = 20` excludes all 19
of those rows from the output while `min_samples = 19` retains all 19. -/
theorem clean_threshold_boundary (rows : List TaggedRow) (g : String)
    (h : genreCount rows g = 19) :
    ((clean_for_modelling rows 20).filter
        (fun r => r.tagged.primary_genre == some g)).length = 0 ∧
    ((clean_for_modelling rows 19).filter
        (fun r => r.tagged.primary_genre == some g)).length = 19 := by
  constructor
  · rw [clean_genre_rows rows g 20, h]
    rfl
  · rw [clean_genre_rows rows g 19, h]
    rfl

/-- Witness for claim C9 at a concrete 20-row table in which genre `RPG`
has exactly 19 rows. -/
theorem clean_threshold_boundary_witness :
    genreCount sampleTable19 ("RPG") = 19 ∧
    ((clean_for_modelling sampleTable19 20).filter
        (fun r => r.tagged.primary_genre == some ("RPG"))).length = 0 ∧
    ((clean_for_modelling sampleTable19 19).filter
        (fun r => r.tagged.primary_genre == some ("RPG"))).length = 19 :=
  ⟨by decide, clean_threshold_boundary sampleTable19 ("RPG") (by decide)⟩

/-! ### The classifier: contents and order of the detected genre list -/

theorem filterMapIf_sublist_map {α β : Type} (p : α → Bool) (f : α → β) :
    ∀ l : List α,
      List.Sublist (l.filterMap (fun a => if p a then some (f a) else none)) (l.map f)
  | [] => List.Sublist.refl []
  | a :: l => by
    rw [List.map_cons, List.filterMap_cons]
    by_cases hp : p a
    · rw [if_pos hp]
      exact List.Sublist.cons₂ (f a) (filterMapIf_sublist_map p f l)
    · rw [if_neg hp]
      exact List.Sublist.cons (f a) (filterMapIf_sublist_map p f l)

theorem genresOnText_tableOrdered (text : List Char) :
    tableOrdered (genresOnText text) := by
  unfold tableOrdered genresOnText
  exact filterMapIf_sublist_map
    (fun gk => gk.2.any (fun kw => strHasSub (lowerChars (s2l kw)) text))
    Prod.fst GENRE_KEYWORDS

theorem genre_names_nodup : (GENRE_KEYWORDS.map Prod.fst).Nodup := by decide

theorem genresOnText_nodup (text : List Char) : (genresOnText text).Nodup :=
  List.Nodup.sublist (genresOnText_tableOrdered text) genre_names_nodup

theorem genresOnText_nil : genresOnText [] = [] := by decide

/-- Counterexample to claim C1 as stated: `list(found_genres)` enumerates a
Python `set`, whose iteration order over strings is hash-randomized.
Reversal is a valid set enumeration, and under it the input
"valorant minecraft" — which matches the FPS and Sandbox keyword lists —
yields `["Sandbox", "FPS"]`, which is not in Genre Table declaration
order. -/
theorem detect_genres_order_counterexample :
    ValidEnum List.reverse ∧
    detect_genres_from_text List.reverse
        (some (s2l ("valorant minecraft"))) none none = ["Sandbox", "FPS"] ∧
    ¬ tableOrdered ["Sandbox", "FPS"] :=
  ⟨fun xs => List.reverse_perm xs, by decide, by unfold tableOrdered; decide⟩

/-- Claim C1 (amended): for every valid set enumeration, the returned
`genres_list` is a duplicate-free permutation of the matched-genre set —
whose canonical table-order enumeration is `matchedGenres`, itself always
in Genre Table declaration order and independent of where keywords
occurred in the input — but the order of `genres_list` itself is the
Python set iteration order, not guaranteed to follow the table. -/
theorem detect_genres_set_contents (enum : List String → List String)
    (h : ValidEnum enum) (title description tags : Option (List Char)) :
    List.Perm (detect_genres_from_text enum title description tags)
      (matchedGenres title description tags) ∧
    tableOrdered (matchedGenres title description tags) ∧
    (detect_genres_from_text enum title description tags).Nodup := by
  have hperm : List.Perm (detect_genres_from_text enum title description tags)
      (matchedGenres title description tags) := by
    rw [detect_genres_from_text]
    by_cases hp : pyParts title description tags = []
    · rw [if_pos hp, matchedGenres, hp]
      rw [show joinedText [] = [] from rfl, genresOnText_nil]
    · rw [if_neg hp]
      exact h _
  refine ⟨hperm, genresOnText_tableOrdered _, ?_⟩
  exact hperm.nodup_iff.mpr (genresOnText_nodup _)

/-- Witness for claim C1 (amended) at the identity enumeration and a
two-genre input. -/
theorem detect_genres_set_contents_witness :
    ValidEnum (fun xs => xs) ∧
    (List.Perm (detect_genres_from_text (fun xs => xs)
        (some (s2l ("valorant minecraft"))) none none)
      (matchedGenres (some (s2l ("valorant minecraft"))) none none) ∧
    tableOrdered (matchedGenres (some (s2l ("valorant minecraft"))) none none) ∧
    (detect_genres_from_text (fun xs => xs)
        (some (s2l ("valorant minecraft"))) none none).Nodup) :=
  ⟨fun xs => List.Perm.refl xs,
   detect_genres_set_contents (fun xs => xs) (fun xs => List.Perm.refl xs)
     (some (s2l ("valorant minecraft"))) none none⟩

/-- Counterexample to claim C2 as stated: the title "hello" is a non-empty
input, yet no genre keyword occurs in it, so `detect_genres_from_text`
returns the empty list (shown for the identity set enumeration). -/
theorem detect_empty_on_nonempty_input :
    ValidEnum (fun xs => xs) ∧
    (s2l ("hello")).isEmpty = false ∧
    detect_genres_from_text (fun xs => xs) (some (s2l ("hello"))) none none = [] :=
  ⟨fun xs => List.Perm.refl xs, by decide, by decide⟩

/-- Claim C2 (amended): `detect_genres_from_text` returns the empty list
iff either all three inputs are absent or empty (`pyParts` is empty — this
left-to-right half of the original claim does hold), or no keyword of any
genre occurs as a substring of the lower-cased space-joined text of the
non-empty inputs. -/
theorem detect_empty_iff (enum : List String → List String) (h : ValidEnum enum)
    (title description tags : Option (List Char)) :
    detect_genres_from_text enum title description tags = [] ↔
      (pyParts title description tags = [] ∨
       ∀ gk ∈ GENRE_KEYWORDS, ∀ kw ∈ gk.2,
         strHasSub (lowerChars (s2l kw))
           (joinedText (pyParts title description tags)) = false) := by
  rw [detect_genres_from_text]
  by_cases hp : pyParts title description tags = []
  · rw [if_pos hp]
    exact iff_of_true rfl (Or.inl hp)
  · rw [if_neg hp]
    have he : enum (matchedGenres title description tags) = [] ↔
        matchedGenres title description tags = [] := by
      constructor
      · intro h0
        exact List.perm_nil.mp (h0 ▸ (h _).symm)
      · intro h0
        rw [h0]
        exact List.perm_nil.mp (h [])
    rw [he, matchedGenres, genresOnText, List.filterMap_eq_nil_iff]
    rw [or_iff_right hp]
    refine forall_congr' fun gk => imp_congr_right fun hgk => ?_
    rw [ite_eq_right_iff]
    constructor
    · intro h0 kw hkw
      cases hsub : strHasSub (lowerChars (s2l kw))
          (joinedText (pyParts title description tags)) with
      | false => rfl
      | true =>
        exact absurd (h0 (List.any_eq_true.mpr ⟨kw, hkw, hsub⟩))
          (Option.some_ne_none _)
    · intro h0 hc
      rcases List.any_eq_true.mp hc with ⟨kw, hkw, hsub⟩
      rw [h0 kw hkw] at hsub
      exact absurd hsub Bool.false_ne_true

/-- Witness for claim C2 (amended) at the identity enumeration and a
concrete non-matching input. -/
theorem detect_empty_iff_witness :
    ValidEnum (fun xs => xs) ∧
    (detect_genres_from_text (fun xs => xs) (some (s2l ("hello"))) none none = [] ↔
      (pyParts (some (s2l ("hello"))) none none = [] ∨
       ∀ gk ∈ GENRE_KEYWORDS, ∀ kw ∈ gk.2,
         strHasSub (lowerChars (s2l kw))
           (joinedText (pyParts (some (s2l ("hello"))) none none)) = false)) :=
  ⟨fun xs => List.Perm.refl xs,
   detect_empty_iff (fun xs => xs) (fun xs => List.Perm.refl xs)
     (some (s2l ("hello"))) none none⟩

/-- Claim C3: in the table produced by `add_primary_genre_column` (pure
content `addGenreColumns`), every row's `primary_genre` is an element of
its `genres_list` whenever that list is non-empty, and `primary_genre` is
null exactly when `genres_list` is empty. -/
theorem primary_genre_consistent (enum : List String → List String)
    (rows : List VideoRow) :
    ∀ r ∈ addGenreColumns enum rows,
      (r.genres_list ≠ [] →
        ∃ g, r.primary_genre = some g ∧ g ∈ r.genres_list) ∧
      (r.primary_genre = none ↔ r.genres_list = []) := by
  intro r hr
  rcases List.mem_map.mp hr with ⟨row, _, rfl⟩
  exact ⟨fun hne => ⟨_, List.head?_eq_head hne, List.head_mem hne⟩,
    List.head?_eq_none_iff⟩

/-- Witness for claim C3 at the identity enumeration and a concrete
one-row table. -/
theorem primary_genre_consistent_witness :
    tagRow (fun xs => xs) sampleVideo ∈
        addGenreColumns (fun xs => xs) [sampleVideo] ∧
    (((tagRow (fun xs => xs) sampleVideo).genres_list ≠ [] →
        ∃ g, (tagRow (fun xs => xs) sampleVideo).primary_genre = some g ∧
          g ∈ (tagRow (fun xs => xs) sampleVideo).genres_list) ∧
     ((tagRow (fun xs => xs) sampleVideo).primary_genre = none ↔
        (tagRow (fun xs => xs) sampleVideo).genres_list = [])) :=
  ⟨by decide,
   primary_genre_consistent (fun xs => xs) [sampleVideo] _ (by decide)⟩

/-- Claim C8: the tags list `["valorant", "fps"]` serializes (pipe join)
to exactly the string "valorant|fps", and `detect_genres_from_text` with
absent title and description and that tags string returns exactly
`["FPS"]` — for every valid set enumeration, since the matched set is a
singleton and a singleton set has only one enumeration. -/
theorem tags_serialization_fps (enum : List String → List String)
    (h : ValidEnum enum) :
    tagsJoin [s2l ("valorant"), s2l ("fps")] = s2l ("valorant|fps") ∧
    detect_genres_from_text enum none none
        (some (tagsJoin [s2l ("valorant"), s2l ("fps")])) = ["FPS"] := by
  refine ⟨by decide, ?_⟩
  rw [detect_genres_from_text, if_neg (by decide)]
  rw [show matchedGenres none none
      (some (tagsJoin [s2l ("valorant"), s2l ("fps")])) = ["FPS"] from by decide]
  exact List.perm_singleton.mp (h ["FPS"])

/-- Witness for claim C8 at the identity enumeration. -/
theorem tags_serialization_fps_witness :
    ValidEnum (fun xs => xs) ∧
    (tagsJoin [s2l ("valorant"), s2l ("fps")] = s2l ("valorant|fps") ∧
     detect_genres_from_text (fun xs => xs) none none
        (some (tagsJoin [s2l ("valorant"), s2l ("fps")])) = ["FPS"]) :=
  ⟨fun xs => List.Perm.refl xs,
   tags_serialization_fps (fun xs => xs) (fun xs => List.Perm.refl xs)⟩

/-! ### The paginated search: raw stream bound and dedup ordering -/

theorem searchRaw_length_le (max_results : Nat) :
    ∀ (pages : List Page) (fetched : Nat),
      pagesBounded max_results pages fetched = true →
      (searchRaw max_results pages fetched).length ≤ max_results - fetched
  | [], fetched, _ => by simp [searchRaw]
  | (items, hasNext) :: rest, fetched, hb => by
    rw [searchRaw]
    by_cases hf : fetched < max_results
    · rw [if_pos hf]
      rw [pagesBounded, if_pos hf, Bool.and_eq_true, decide_eq_true_eq] at hb
      obtain ⟨hlen, hrest⟩ := hb
      cases hasNext with
      | false => simp only [if_neg Bool.false_ne_true, List.append_nil]; omega
      | true =>
        show (items ++ searchRaw max_results rest (fetched + items.length)).length ≤
          max_results - fetched
        rw [List.length_append]
        simp only [Bool.not_true, Bool.false_or] at hrest
        have := searchRaw_length_le max_results rest (fetched + items.length) hrest
        omega
    · rw [if_neg hf]
      simp

theorem dedupFirstAux_pairwise_firstIdx :
    ∀ (xs seen : List (List Char)),
      (dedupFirstAux seen xs).Pairwise
        (fun a b => firstIdx xs a < firstIdx xs b)
  | [], _ => List.Pairwise.nil
  | y :: ys, seen => by
    rw [dedupFirstAux]
    by_cases hy : y ∈ seen
    · rw [if_pos hy]
      refine List.Pairwise.imp_of_mem ?_ (dedupFirstAux_pairwise_firstIdx ys seen)
      intro a b ha hb hab
      have ha' := (mem_dedupFirstAux a ys seen).mp ha
      have hb' := (mem_dedupFirstAux b ys seen).mp hb
      have hya : y ≠ a := fun h => ha'.2 (h ▸ hy)
      have hyb : y ≠ b := fun h => hb'.2 (h ▸ hy)
      simp only [firstIdx]
      rw [if_neg hya, if_neg hyb]
      omega
    · rw [if_neg hy]
      refine List.Pairwise.cons ?_ ?_
      · intro b hb
        have hb' := (mem_dedupFirstAux b ys (y :: seen)).mp hb
        have hyb : y ≠ b := fun h => hb'.2 (h ▸ List.mem_cons_self y seen)
        simp only [firstIdx, if_true]
        rw [if_neg hyb]
        omega
      · refine List.Pairwise.imp_of_mem ?_
          (dedupFirstAux_pairwise_firstIdx ys (y :: seen))
        intro a b ha hb hab
        have ha' := (mem_dedupFirstAux a ys (y :: seen)).mp ha
        have hb' := (mem_dedupFirstAux b ys (y :: seen)).mp hb
        have hya : y ≠ a := fun h => ha'.2 (h ▸ List.mem_cons_self y seen)
        have hyb : y ≠ b := fun h => hb'.2 (h ▸ List.mem_cons_self y seen)
        simp only [firstIdx]
        rw [if_neg hya, if_neg hyb]
        omega

/-- Claim C6: under the precondition that every requested search page
returns at most the number of items requested for it, `youtube_search`
returns a duplicate-free identifier sequence of length at most
`max_results` (possibly shorter — nothing forces the trace to fill the
budget), which is a subsequence of the raw paged stream, contains exactly
the stream's identifiers, and is ordered by first occurrence in the
stream. -/
theorem youtube_search_spec (pages : List Page) (max_results : Nat)
    (h : pagesBounded max_results pages 0 = true) :
    (youtube_search pages max_results).Nodup ∧
    (youtube_search pages max_results).length ≤ max_results ∧
    List.Sublist (youtube_search pages max_results)
      (searchRaw max_results pages 0) ∧
    (∀ x, x ∈ youtube_search pages max_results ↔
      x ∈ searchRaw max_results pages 0) ∧
    (youtube_search pages max_results).Pairwise
      (fun a b => firstIdx (searchRaw max_results pages 0) a <
        firstIdx (searchRaw max_results pages 0) b) := by
  unfold youtube_search dedupFirst
  refine ⟨dedupFirstAux_nodup _ _, ?_, dedupFirstAux_sublist _ _, ?_,
    dedupFirstAux_pairwise_firstIdx _ _⟩
  · have h1 := searchRaw_length_le max_results pages 0 h
    have h2 := (dedupFirstAux_sublist (searchRaw max_results pages 0) []).length_le
    omega
  · intro x
    rw [mem_dedupFirstAux]
    simp

/-- Witness for claim C6 at a concrete two-page trace. -/
theorem youtube_search_spec_witness :
    pagesBounded 200 samplePages 0 = true ∧
    ((youtube_search samplePages 200).Nodup ∧
     (youtube_search samplePages 200).length ≤ 200 ∧
     List.Sublist (youtube_search samplePages 200)
       (searchRaw 200 samplePages 0) ∧
     (∀ x, x ∈ youtube_search samplePages 200 ↔
       x ∈ searchRaw 200 samplePages 0) ∧
     (youtube_search samplePages 200).Pairwise
       (fun a b => firstIdx (searchRaw 200 samplePages 0) a <
         firstIdx (searchRaw 200 samplePages 0) b)) :=
  ⟨by decide, youtube_search_spec samplePages 200 (by decide)⟩

/-! ### Frame properties of the store-level DataFrame operations -/

theorem storeGet_append_left (σ : Store) (t : PTable) (r : Nat)
    (hr : r < σ.length) : storeGet (σ ++ [t]) r = storeGet σ r := by
  simp only [storeGet, List.getD_eq_getElem?_getD]
  rw [List.getElem?_append_left hr]

theorem storeGet_set_ne (σ : Store) (i : Nat) (t : PTable) (r : Nat)
    (h : i ≠ r) : storeGet (σ.set i t) r = storeGet σ r := by
  simp only [storeGet, List.getD_eq_getElem?_getD]
  rw [List.getElem?_set_ne h]

theorem storeGet_set_self (σ : Store) (i : Nat) (t : PTable)
    (hi : i < σ.length) : storeGet (σ.set i t) i = t := by
  simp only [storeGet, List.getD_eq_getElem?_getD]
  rw [List.getElem?_set_self hi]
  rfl

/-- Claim C10: `add_primary_genre_column` and `clean_for_modelling` do not
mutate the table passed to them: each allocates an explicit copy, writes
the added or filtered columns only into fresh cells, and returns a fresh
reference, so after either call the caller's original reference `r` holds
exactly the table it held before, while the returned reference (distinct
from `r`) carries the computed result. -/
theorem dataframe_frame_preservation (enum : List String → List String)
    (σ : Store) (r : Nat) (m : Nat) (hr : r < σ.length) :
    (storeGet (add_primary_genre_column enum σ r).1 r = storeGet σ r ∧
     (add_primary_genre_column enum σ r).2 ≠ r ∧
     storeGet (add_primary_genre_column enum σ r).1
         (add_primary_genre_column enum σ r).2 =
       PTable.tagged (addGenreColumns enum (vidRowsAt σ r))) ∧
    (storeGet (clean_for_modelling_st σ r m).1 r = storeGet σ r ∧
     (clean_for_modelling_st σ r m).2 ≠ r ∧
     storeGet (clean_for_modelling_st σ r m).1 (clean_for_modelling_st σ r m).2 =
       PTable.model (clean_for_modelling (taggedRowsAt σ r) m)) := by
  have hne : σ.length ≠ r := Nat.ne_of_gt hr
  constructor
  · refine ⟨?_, hne, ?_⟩
    · show storeGet ((σ ++ [storeGet σ r]).set σ.length
          (PTable.tagged (addGenreColumns enum (vidRowsAt σ r)))) r = storeGet σ r
      rw [storeGet_set_ne _ _ _ _ hne, storeGet_append_left _ _ _ hr]
    · show storeGet ((σ ++ [storeGet σ r]).set σ.length
          (PTable.tagged (addGenreColumns enum (vidRowsAt σ r)))) σ.length = _
      rw [storeGet_set_self]
      simp
  · have hne1 : σ.length + 1 ≠ r := by omega
    refine ⟨?_, ?_, ?_⟩
    · show storeGet (((σ ++ [_]) ++ [_]).set (σ ++ [_] : Store).length _) r =
        storeGet σ r
      rw [storeGet_set_ne _ _ _ _ (by simp; omega),
        storeGet_append_left _ _ _ (by simp; omega),
        storeGet_append_left _ _ _ hr]
    · show (σ ++ [_] : Store).length ≠ r
      simp
      omega
    · show storeGet (((σ ++ [_]) ++ [_]).set (σ ++ [_] : Store).length _)
          (σ ++ [_] : Store).length = _
      rw [storeGet_set_self]
      · rfl
      · simp

/-- Witness for claim C10 at the identity enumeration, a concrete
one-cell store and the default threshold 20. -/
theorem dataframe_frame_preservation_witness :
    0 < sampleStore.length ∧
    ((storeGet (add_primary_genre_column (fun xs => xs) sampleStore 0).1 0 =
        storeGet sampleStore 0 ∧
      (add_primary_genre_column (fun xs => xs) sampleStore 0).2 ≠ 0 ∧
      storeGet (add_primary_genre_column (fun xs => xs) sampleStore 0).1
          (add_primary_genre_column (fun xs => xs) sampleStore 0).2 =
        PTable.tagged (addGenreColumns (fun xs => xs) (vidRowsAt sampleStore 0))) ∧
     (storeGet (clean_for_modelling_st sampleStore 0 20).1 0 =
        storeGet sampleStore 0 ∧
      (clean_for_modelling_st sampleStore 0 20).2 ≠ 0 ∧
      storeGet (clean_for_modelling_st sampleStore 0 20).1
          (clean_for_modelling_st sampleStore 0 20).2 =
        PTable.model (clean_for_modelling (taggedRowsAt sampleStore 0) 20))) :=
  ⟨by decide,
   dataframe_frame_preservation (fun xs => xs) sampleStore 0 20 (by decide)⟩

end AutomatePipeline
